import Mathlib

/-!
Verification of the `frontpage` static site generator (`src/frontpage.py`)
against its natural-language specification.

The Python source is shallowly embedded below.  Conventions:
* Python strings are Lean `String`s; where suffix or case reasoning is
  needed we go through `String.data : List Char`.
* `str.endswith` and `str.startswith` are embedded as decidable suffix and
  prefix tests on the character lists (`pyEndsWith`, `pyStartsWith`).
* `os.path.join` is embedded as `pyJoin` (POSIX rules for the shapes that
  occur in this program; the second argument is never an absolute path at
  the call sites, which `listdir`-produced names guarantee).
* The filesystem is passed explicitly: `InputFS` provides `read` (file
  contents plus the markdown2 "metadata" mapping), `listdir`, and `isfile`.
* Exceptions (`ValueError` from `strptime`, `TypeError` from comparing
  `None`, `FileNotFoundError` from `open`/`listdir`) become `Except String`.
* The Jinja2 templates and the markdown-to-HTML conversion are external
  collaborators (spec section 1, explicitly out of scope); they are embedded
  as total functions whose exact output no claim depends on.
* The module-level `config` values (`input_dir`, `output_dir`) become
  explicit parameters of the embedded functions.
-/

/-! ## Python string and path primitives -/

/-- Embedding of Python `str.endswith(suf)`: `suf` is a suffix of `s`. -/
def pyEndsWith (s suf : String) : Bool :=
  decide (List.IsSuffix suf.data s.data)

/-- Embedding of Python `str.startswith(pre)`: the argument is a prefix of `s`. -/
def pyStartsWith (s p : String) : Bool :=
  decide (List.IsPrefix p.data s.data)

/-- Embedding of Python `str.lower()` (ASCII fragment; the only use in the
source compares against the ASCII literal `"true"`). -/
def pyLower (s : String) : String :=
  s.map Char.toLower

/-- Embedding of `os.path.join(a, b)` (POSIX).  The absolute-`b` special case
is included for faithfulness even though no call site exercises it. -/
def pyJoin (a b : String) : String :=
  if pyStartsWith b "/" then b
  else if a = "" ∨ pyEndsWith a "/" then a ++ b
  else a ++ "/" ++ b

/-- Index of the last occurrence of a character in a list, if any. -/
def lastIndexOf (c : Char) : List Char → Option Nat
  | [] => none
  | x :: xs =>
    match lastIndexOf c xs with
    | some i => some (i + 1)
    | none => if x = c then some 0 else none

/-- Embedding of `os.path.splitext(p)[0]` (POSIX `genericpath._splitext` with
separator `/` and extension separator `.`): cut at the last dot, unless every
character of the basename before that dot is itself a dot. -/
def splitextRoot (p : String) : String :=
  let l := p.data
  match lastIndexOf '.' l with
  | none => p
  | some di =>
    -- `dotIndex > sepIndex`, where a missing separator counts as index -1
    let cond : Bool :=
      match lastIndexOf '/' l with
      | none => true
      | some si => decide (si < di)
    let fi : Nat :=
      match lastIndexOf '/' l with
      | none => 0
      | some si => si + 1
    if cond then
      -- split at the dot only if some basename char before it is not a dot
      if ((l.drop fi).take (di - fi)).any (fun c => c ≠ '.') then
        String.mk (l.take di)
      else p
    else p

/-! ## Dates: `datetime.datetime.strptime(date, "%m-%d-%Y")` and
`strftime("%b %-d, %Y")` -/

/-- Structured timestamp produced by `datetime.datetime.strptime`; only the
calendar fields are populated by the format used in the source. -/
structure PyDateTime where
  year : Nat
  month : Nat
  day : Nat
deriving DecidableEq, Repr

/-- Chronological strict order on timestamps (Python `datetime` comparison):
lexicographic on (year, month, day). -/
def dtLt (a b : PyDateTime) : Bool :=
  decide (a.year < b.year ∨ (a.year = b.year ∧
    (a.month < b.month ∨ (a.month = b.month ∧ a.day < b.day))))

/-- Number of days in a month, with the Gregorian leap rule, as validated by
the `datetime.datetime` constructor. -/
def daysInMonth (year month : Nat) : Nat :=
  if month = 2 then
    if year % 4 = 0 ∧ (year % 100 ≠ 0 ∨ year % 400 = 0) then 29 else 28
  else if month = 4 ∨ month = 6 ∨ month = 9 ∨ month = 11 then 30
  else 31

/-- Numeric value of a digit string. -/
def digitsVal (l : List Char) : Nat :=
  l.foldl (fun a c => a * 10 + (c.toNat - 48)) 0

/-- Embedding of `datetime.datetime.strptime(s, "%m-%d-%Y")`.  CPython's
`_strptime` compiles this format to the anchored regex
`(1[0-2]|0[1-9]|[1-9])-(3[01]|[12]\d|0[1-9]|[1-9])-(\d\d\d\d)` requiring a
full match, then the `datetime` constructor validates the day against the
month length and requires `MINYEAR <= year`.  Equivalently: exactly three
dash-separated all-digit fields, month of one or two digits with value 1..12,
day of one or two digits with value 1..31 and at most the month length, year
of exactly four digits with value at least 1. -/
def strptimeMDY (s : String) : Option PyDateTime :=
  match s.data.splitOn '-' with
  | [m, d, y] =>
    if m.all Char.isDigit ∧ d.all Char.isDigit ∧ y.all Char.isDigit ∧
       1 ≤ m.length ∧ m.length ≤ 2 ∧ 1 ≤ d.length ∧ d.length ≤ 2 ∧
       y.length = 4 then
      let mv := digitsVal m
      let dv := digitsVal d
      let yv := digitsVal y
      if 1 ≤ mv ∧ mv ≤ 12 ∧ 1 ≤ yv ∧ 1 ≤ dv ∧ dv ≤ daysInMonth yv mv then
        some ⟨yv, mv, dv⟩
      else none
    else none
  | _ => none

/-- Abbreviated month name (`%b`, C locale). -/
def monthAbbrev (m : Nat) : String :=
  match m with
  | 1 => "Jan" | 2 => "Feb" | 3 => "Mar" | 4 => "Apr"
  | 5 => "May" | 6 => "Jun" | 7 => "Jul" | 8 => "Aug"
  | 9 => "Sep" | 10 => "Oct" | 11 => "Nov" | 12 => "Dec"
  | _ => ""

/-- Embedding of `dt.strftime("%b %-d, %Y")` (glibc): abbreviated month name,
unpadded day of month, comma, unpadded year. -/
def strftimeDisplay (dt : PyDateTime) : String :=
  monthAbbrev dt.month ++ " " ++ toString dt.day ++ ", " ++ toString dt.year

/-! ## SHA-1 (`hashlib.sha1(name.encode()).hexdigest()`) -/

/-- UTF-8 encoding of one character (Python `str.encode()` is UTF-8). -/
def utf8Bytes (c : Char) : List Nat :=
  let n := c.toNat
  if n < 128 then [n]
  else if n < 2048 then [192 + n / 64, 128 + n % 64]
  else if n < 65536 then [224 + n / 4096, 128 + (n / 64) % 64, 128 + n % 64]
  else [240 + n / 262144, 128 + (n / 4096) % 64, 128 + (n / 64) % 64, 128 + n % 64]

/-- UTF-8 bytes of a string. -/
def strBytes (s : String) : List Nat :=
  s.data.foldr (fun c acc => utf8Bytes c ++ acc) []

/-- Left-rotation of a 32-bit word represented as a `Nat` below `2^32`. -/
def rotl32 (n x : Nat) : Nat :=
  ((x <<< n) % 4294967296) ||| (x >>> (32 - n))

/-- Big-endian 8-byte encoding of a natural number (message bit length). -/
def be64 (n : Nat) : List Nat :=
  [n >>> 56 % 256, n >>> 48 % 256, n >>> 40 % 256, n >>> 32 % 256,
   n >>> 24 % 256, n >>> 16 % 256, n >>> 8 % 256, n % 256]

/-- SHA-1 padding: append `0x80`, zero bytes to 56 mod 64, then the bit
length as 8 big-endian bytes. -/
def sha1Pad (m : List Nat) : List Nat :=
  let zeros := (119 - m.length % 64) % 64
  m ++ 128 :: List.replicate zeros 0 ++ be64 (m.length * 8)

/-- Group bytes into big-endian 32-bit words. -/
def bytesToWords : List Nat → List Nat
  | b0 :: b1 :: b2 :: b3 :: rest =>
    (b0 <<< 24 ||| b1 <<< 16 ||| b2 <<< 8 ||| b3) :: bytesToWords rest
  | _ => []

/-- Split a byte list into 64-byte chunks (fuel-driven so that it reduces by
plain kernel evaluation). -/
def chunks64Aux : Nat → List Nat → List (List Nat)
  | 0, _ => []
  | _, [] => []
  | fuel + 1, l => l.take 64 :: chunks64Aux fuel (l.drop 64)

/-- All 64-byte chunks of a list. -/
def chunks64 (l : List Nat) : List (List Nat) :=
  chunks64Aux l.length l

/-- Extend the 16-word message schedule to 80 words. -/
def sha1Schedule : Nat → List Nat → List Nat
  | 0, w => w
  | fuel + 1, w =>
    let i := w.length
    let x := (w.getD (i - 3) 0) ^^^ (w.getD (i - 8) 0) ^^^
             (w.getD (i - 14) 0) ^^^ (w.getD (i - 16) 0)
    sha1Schedule fuel (w ++ [rotl32 1 x])

/-- One SHA-1 round: mixing function and constant depend on the round index. -/
def sha1Round (st : Nat × Nat × Nat × Nat × Nat) (iw : Nat × Nat) :
    Nat × Nat × Nat × Nat × Nat :=
  let (a, b, c, d, e) := st
  let (i, w) := iw
  let f :=
    if i < 20 then (b &&& c) ||| ((4294967295 - b) &&& d)
    else if i < 40 then b ^^^ c ^^^ d
    else if i < 60 then (b &&& c) ||| (b &&& d) ||| (c &&& d)
    else b ^^^ c ^^^ d
  let k :=
    if i < 20 then 1518500249
    else if i < 40 then 1859775393
    else if i < 60 then 2400959708
    else 3395469782
  let temp := (rotl32 5 a + f + e + k + w) % 4294967296
  (temp, a, rotl32 30 b, c, d)

/-- Process one 64-byte chunk, updating the five-word state. -/
def sha1Chunk (h : Nat × Nat × Nat × Nat × Nat) (chunk : List Nat) :
    Nat × Nat × Nat × Nat × Nat :=
  let w := sha1Schedule 64 (bytesToWords chunk)
  let (a, b, c, d, e) := w.enum.foldl sha1Round h
  let (h0, h1, h2, h3, h4) := h
  ((h0 + a) % 4294967296, (h1 + b) % 4294967296, (h2 + c) % 4294967296,
   (h3 + d) % 4294967296, (h4 + e) % 4294967296)

/-- Lowercase hexadecimal digit. -/
def hexChar (n : Nat) : Char :=
  if n < 10 then Char.ofNat (48 + n) else Char.ofNat (87 + n)

/-- Fixed-width lowercase hexadecimal rendering. -/
def toHexAux : Nat → Nat → List Char
  | 0, _ => []
  | d + 1, n => toHexAux d (n >>> 4) ++ [hexChar (n % 16)]

/-- Embedding of `hashlib.sha1(s.encode()).hexdigest()`. -/
def sha1Hex (s : String) : String :=
  let msg := sha1Pad (strBytes s)
  let (h0, h1, h2, h3, h4) :=
    (chunks64 msg).foldl sha1Chunk
      (1732584193, 4023233417, 2562383102, 271733878, 3285377520)
  String.mk (toHexAux 8 h0 ++ toHexAux 8 h1 ++ toHexAux 8 h2 ++
    toHexAux 8 h3 ++ toHexAux 8 h4)

/-! ## The page model (`frontpage.py` lines 38-168) -/

/-- Entry of the navigation list built by `build_site` (line 186): a dict
with keys `name`, `title`, `type_name`. -/
structure Nav where
  name : String
  title : String
  typeName : String
deriving DecidableEq, Repr

/-- Contents of one source file as delivered by the external collaborators:
`body` is the raw markdown text (already past `replace_assets_url`, whose
effect is out of scope), `metadata` is the front-matter mapping extracted by
`markdown2` with the `metadata` extra.  A Python dict has unique keys and
preserves insertion order; it is embedded as an association list. -/
structure FileData where
  body : String
  metadata : List (String × String)
deriving DecidableEq, Repr

/-- Explicit model of the input filesystem: `read` is `open(...).read()`
combined with markdown metadata extraction (`none` meaning
`FileNotFoundError`), `listdir` is `os.listdir` (`none` meaning the
directory is absent), `isfile` is `os.path.isfile`. -/
structure InputFS where
  read : String → Option FileData
  listdir : String → Option (List String)
  isfile : String → Bool

/-- External collaborator: `markdown2.markdown` (HTML conversion proper).
Out of scope per spec section 1; embedded as a placeholder transformation
no claim depends on. -/
def markdownRender (body : String) : String :=
  body

/-- External collaborator: `page_template.render(...)` (Jinja2).  Out of
scope per spec section 1; embedded as a placeholder no claim depends on. -/
def pageTemplateRender (navs : List Nav) (title content : String) : String :=
  title ++ "\n" ++ content ++ "\n" ++ toString navs.length

/-- SinglePage (and its specialization FrontPage): fields of the `Page` base
class (lines 38-50) as set by `SinglePage.__init__` (lines 71-75).  `parent`
stores the owning page's name (a non-owning back-reference; only the name is
ever read from it, in `PostPage.__init__`). -/
structure SinglePage where
  name : String
  title : String
  parent : Option String
  src : String
  target : String
  hidden : Bool
  content : Option String
  output : Option String
deriving DecidableEq, Repr

/-- Embedding of `SinglePage.__init__(name, title, hidden=False)`
(lines 71-75). -/
def SinglePage.make (name title : String) (hidden : Bool) : SinglePage :=
  { name := name, title := title, parent := none,
    src := name ++ ".md", target := name,
    hidden := hidden, content := none, output := none }

/-- Embedding of `FrontPage.__init__(name, title)` (lines 90-94): run the
SinglePage constructor, then override `name`, `title` and `target`. -/
def FrontPage.make (name title : String) : SinglePage :=
  let p := SinglePage.make name title false
  { p with name := "home", title := "Home", target := "" }

/-- PostPage fields (lines 136-149).  `parent` stores the owning
collection's name. -/
structure PostPage where
  name : String
  title : String
  parent : String
  src : String
  target : String
  hidden : Bool
  content : Option String
  output : Option String
  datetime : Option PyDateTime
  date : Option String
  subtitle : Option String
  uuid : String
deriving DecidableEq, Repr

/-- Embedding of `PostPage.__init__(name, title, parent)` (lines 142-149).
The dynamic checks of lines 144-145 (`parent` must be present and a
`CollectionPage`) are discharged by typing: the embedded constructor takes
the collection's name, and every call site in the source passes a
collection. -/
def PostPage.make (name title parentName : String) : PostPage :=
  { name := name, title := title, parent := parentName,
    src := pyJoin parentName (name ++ ".md"),
    uuid := sha1Hex name,
    target := pyJoin parentName (sha1Hex name),
    hidden := false, content := none, output := none,
    datetime := none, date := none, subtitle := none }

/-- CollectionPage fields (lines 101-109). -/
structure CollectionPage where
  name : String
  title : String
  parent : Option String
  src : String
  target : String
  hidden : Bool
  posts : List PostPage
  output : Option String
deriving DecidableEq, Repr

/-- Embedding of `CollectionPage.__init__(name, title, hidden=False)`
(lines 104-109). -/
def CollectionPage.make (name title : String) (hidden : Bool) : CollectionPage :=
  { name := name, title := title, parent := none,
    src := name, target := name,
    hidden := hidden, posts := [], output := none }

/-- External collaborator: `collection_template.render(...)` (Jinja2).  Out
of scope per spec section 1; embedded as a placeholder. -/
def collectionTemplateRender (navs : List Nav) (title : String)
    (posts : List PostPage) : String :=
  title ++ "\n" ++ String.join (posts.map (fun p => p.title)) ++
    "\n" ++ toString navs.length

/-! ## Metadata extraction (`PostPage.load`, lines 151-168) -/

/-- One iteration of the `for k in content.metadata` loop (lines 155-166). -/
def applyMeta (p : PostPage) (kv : String × String) : Except String PostPage :=
  match kv.1 with
  | "title" => .ok { p with title := kv.2 }
  | "subtitle" => .ok { p with subtitle := some kv.2 }
  | "date" =>
    match strptimeMDY kv.2 with
    | some dt => .ok { p with datetime := some dt, date := some (strftimeDisplay dt) }
    | none => .error "ValueError: time data does not match format %m-%d-%Y"
  | "hidden" => .ok (if pyLower kv.2 = "true" then { p with hidden := true } else p)
  | _ => .ok p

/-- The whole metadata loop; Python's first uncaught exception aborts it. -/
def PostPage.loadMeta (p : PostPage) : List (String × String) → Except String PostPage
  | [] => .ok p
  | kv :: rest =>
    match applyMeta p kv with
    | .error e => .error e
    | .ok p' => PostPage.loadMeta p' rest

/-- Embedding of `PostPage.load(navs)` (lines 151-168): read the source file,
extract metadata, then set `content` and `output`. -/
def PostPage.load (p : PostPage) (inputDir : String) (fs : InputFS)
    (navs : List Nav) : Except String PostPage :=
  match fs.read (pyJoin inputDir p.src) with
  | none => .error "FileNotFoundError"
  | some f =>
    match PostPage.loadMeta p f.metadata with
    | .error e => .error e
    | .ok p' =>
      .ok { p' with
            content := some (markdownRender f.body)
            output := some (pageTemplateRender navs p'.title (markdownRender f.body)) }

/-- Embedding of `SinglePage.load(navs)` (lines 77-81). -/
def SinglePage.load (p : SinglePage) (inputDir : String) (fs : InputFS)
    (navs : List Nav) : Except String SinglePage :=
  match fs.read (pyJoin inputDir p.src) with
  | none => .error "FileNotFoundError"
  | some f =>
    .ok { p with
          content := some (markdownRender f.body)
          output := some (pageTemplateRender navs p.title (markdownRender f.body)) }

/-! ## Collection aggregation (`CollectionPage.load`, lines 111-124) -/

/-- Sequential effectful map: a Python `for` loop whose body may raise, the
first exception aborting the whole loop. -/
def mapExcept (f : α → Except String β) : List α → Except String (List β)
  | [] => .ok []
  | x :: xs =>
    match f x with
    | .error e => .error e
    | .ok y =>
      match mapExcept f xs with
      | .error e => .error e
      | .ok ys => .ok (y :: ys)

/-- Python comparison of two sort keys (`x.datetime < y.datetime`):
comparing `None` with anything (including `None`) raises `TypeError`. -/
def cmpKeyLt (a b : Option PyDateTime) : Except String Bool :=
  match a, b with
  | some x, some y => .ok (dtLt x y)
  | _, _ => .error "TypeError: datetime and NoneType are not comparable"

/-- Insert a post into an already-sorted (descending) list: skip past every
element whose key is strictly greater, so that among equal keys the inserted
(earlier-discovered) element comes first. -/
def insertPost (x : PostPage) : List PostPage → Except String (List PostPage)
  | [] => .ok [x]
  | y :: ys =>
    match cmpKeyLt x.datetime y.datetime with
    | .error e => .error e
    | .ok true =>
      match insertPost x ys with
      | .error e => .error e
      | .ok r => .ok (y :: r)
    | .ok false => .ok (x :: y :: ys)

/-- Embedding of `self.posts.sort(key=lambda x: x.datetime, reverse=True)`
(line 122).  CPython's timsort with `reverse=True` is a stable descending
sort, and any two stable descending sorts agree, so on success this stable
insertion sort returns exactly what the source computes.  On the error side
both raise `TypeError` in exactly the same situations: a `None` key raises
iff the list has at least two elements, because every element takes part in
at least one key comparison then (timsort compares all adjacent pairs during
run detection; the insertion sort compares every inserted element with the
head it meets), while a list of fewer than two elements performs no
comparison at all.  This equivalence for the error side is what theorems
`sortPosts_ok_all_some` and `c3_counterexample` below rest on. -/
def sortPostsByDateDesc : List PostPage → Except String (List PostPage)
  | [] => .ok []
  | x :: xs =>
    match sortPostsByDateDesc xs with
    | .error e => .error e
    | .ok r => insertPost x r

/-- Embedding of the discovery loop (lines 113-117): one `PostPage` per
directory entry that is a regular file and ends in `.md`, named after the
filename without its extension. -/
def discoverPosts (isfile : String → Bool) (srcPath : String)
    (names : List String) (parentName : String) : List PostPage :=
  names.filterMap fun filename =>
    let path := pyJoin srcPath filename
    if isfile path && pyEndsWith path ".md" then
      some (PostPage.make (splitextRoot filename) (splitextRoot filename) parentName)
    else none

/-- Lines 111-119 of `CollectionPage.load`: list the collection's source
directory, discover the posts, and load each in order. -/
def CollectionPage.loadPosts (c : CollectionPage) (inputDir : String)
    (fs : InputFS) (navs : List Nav) : Except String (List PostPage) :=
  match fs.listdir (pyJoin inputDir c.src) with
  | none => .error "FileNotFoundError"
  | some names =>
    mapExcept (fun p => PostPage.load p inputDir fs navs)
      (discoverPosts fs.isfile (pyJoin inputDir c.src) names c.name)

/-- Embedding of `CollectionPage.load(navs)` (lines 111-124): discover and
load the posts, sort them by date descending, then render the index. -/
def CollectionPage.load (c : CollectionPage) (inputDir : String)
    (fs : InputFS) (navs : List Nav) : Except String CollectionPage :=
  match CollectionPage.loadPosts c inputDir fs navs with
  | .error e => .error e
  | .ok loaded =>
    match sortPostsByDateDesc loaded with
    | .error e => .error e
    | .ok sorted =>
      .ok { c with
            posts := sorted
            output := some (collectionTemplateRender navs c.title sorted) }

/-! ## Writing and the build orchestrator (lines 56-61, 126-129, 184-193) -/

/-- Embedding of `Page.write(output_dir)` (lines 56-61): emit
`output_dir/target/index.html` holding the page's buffered output.  Writing
an unset (`None`) output raises `TypeError` in Python. -/
def writeEntries (target : String) (output : Option String) (outDir : String) :
    Except String (List (String × String)) :=
  match output with
  | none => .error "TypeError: write() argument must be str, not None"
  | some o => .ok [(pyJoin (pyJoin outDir target) "index.html", o)]

/-- PostPage and SinglePage inherit `Page.write` unchanged. -/
def PostPage.write (p : PostPage) (outDir : String) :
    Except String (List (String × String)) :=
  writeEntries p.target p.output outDir

/-- SinglePage `write` is the base-class `write`. -/
def SinglePage.write (p : SinglePage) (outDir : String) :
    Except String (List (String × String)) :=
  writeEntries p.target p.output outDir

/-- Embedding of `CollectionPage.write` (lines 126-129): cascade to every
post first, then write the collection's own index. -/
def CollectionPage.write (c : CollectionPage) (outDir : String) :
    Except String (List (String × String)) :=
  match mapExcept (fun p => PostPage.write p outDir) c.posts with
  | .error e => .error e
  | .ok rs =>
    match writeEntries c.target c.output outDir with
    | .error e => .error e
    | .ok own => .ok (rs.flatten ++ own)

/-- The closed set of top-level page variants (spec section 9: variant
dispatch over the fixed subclass set). -/
inductive SitePage where
  | single : SinglePage → SitePage
  | front : SinglePage → SitePage
  | collection : CollectionPage → SitePage
deriving DecidableEq, Repr

/-- Declared identifier of a top-level page. -/
def SitePage.name : SitePage → String
  | .single p => p.name
  | .front p => p.name
  | .collection c => c.name

/-- Declared title of a top-level page. -/
def SitePage.title : SitePage → String
  | .single p => p.title
  | .front p => p.title
  | .collection c => c.title

/-- Hidden flag of a top-level page. -/
def SitePage.hidden : SitePage → Bool
  | .single p => p.hidden
  | .front p => p.hidden
  | .collection c => c.hidden

/-- Target directory of a top-level page. -/
def SitePage.target : SitePage → String
  | .single p => p.target
  | .front p => p.target
  | .collection c => c.target

/-- Embedding of `type_name()` (lines 63-64): the runtime class name. -/
def SitePage.typeName : SitePage → String
  | .single _ => "SinglePage"
  | .front _ => "FrontPage"
  | .collection _ => "CollectionPage"

/-- Polymorphic `load` dispatch (`FrontPage` inherits `SinglePage.load`). -/
def SitePage.load (pg : SitePage) (inputDir : String) (fs : InputFS)
    (navs : List Nav) : Except String SitePage :=
  match pg with
  | .single p =>
    match SinglePage.load p inputDir fs navs with
    | .error e => .error e
    | .ok p' => .ok (.single p')
  | .front p =>
    match SinglePage.load p inputDir fs navs with
    | .error e => .error e
    | .ok p' => .ok (.front p')
  | .collection c =>
    match CollectionPage.load c inputDir fs navs with
    | .error e => .error e
    | .ok c' => .ok (.collection c')

/-- Polymorphic `write` dispatch. -/
def SitePage.write (pg : SitePage) (outDir : String) :
    Except String (List (String × String)) :=
  match pg with
  | .single p => SinglePage.write p outDir
  | .front p => SinglePage.write p outDir
  | .collection c => CollectionPage.write c outDir

/-- Embedding of line 186: the navigation list, one entry per non-hidden
declared page, in declared order (a Python list comprehension with a
filter). -/
def navsOf (pages : List SitePage) : List Nav :=
  pages.filterMap fun p =>
    if p.hidden then none else some ⟨p.name, p.title, p.typeName⟩

/-- Embedding of `build_site(pages, output_dir)` (lines 184-193): derive the
navigation list, then load every page in declared order, then write every
page in declared order.  `build_skeleton` (lines 170-182) only stages static
assets through external collaborators and is out of scope.  The result is
the loaded pages and the list of written files (path, contents). -/
def buildSite (pages : List SitePage) (inputDir : String) (fs : InputFS)
    (outDir : String) : Except String (List SitePage × List (String × String)) :=
  let navs := navsOf pages
  match mapExcept (fun p => SitePage.load p inputDir fs navs) pages with
  | .error e => .error e
  | .ok loaded =>
    match mapExcept (fun p => SitePage.write p outDir) loaded with
    | .error e => .error e
    | .ok writes => .ok (loaded, writes.flatten)

/-! ## Properties of the date order -/

/-- Specification order for the sorted post list: descending-or-equal on the
parsed timestamps (in particular both must be present). -/
def postGE (a b : PostPage) : Prop :=
  ∃ u v, a.datetime = some u ∧ b.datetime = some v ∧ dtLt u v = false

/-- The chronological order is irreflexive. -/
theorem dtLt_irrefl (a : PyDateTime) : dtLt a a = false := by
  simp [dtLt]

/-- The chronological order is asymmetric. -/
theorem dtLt_asymm {a b : PyDateTime} (h : dtLt a b = true) : dtLt b a = false := by
  simp [dtLt] at h ⊢
  omega

/-- Non-strict chronological comparison is transitive. -/
theorem dtLt_false_trans {a b c : PyDateTime} (h1 : dtLt a b = false)
    (h2 : dtLt b c = false) : dtLt a c = false := by
  simp [dtLt] at h1 h2 ⊢
  omega

/-- A successful key comparison means both keys were present and the result
is the chronological comparison of their values. -/
theorem cmpKeyLt_ok {a b : Option PyDateTime} {v : Bool}
    (h : cmpKeyLt a b = .ok v) : ∃ u w, a = some u ∧ b = some w ∧ v = dtLt u w := by
  cases a with
  | none => simp [cmpKeyLt] at h
  | some u =>
    cases b with
    | none => simp [cmpKeyLt] at h
    | some w =>
      refine ⟨u, w, rfl, rfl, ?_⟩
      simpa [cmpKeyLt] using h.symm

/-! ## Properties of the embedded sort -/

/-- Unfolding equation for `insertPost` on a nonempty list. -/
theorem insertPost_cons (x y : PostPage) (ys : List PostPage) :
    insertPost x (y :: ys) =
      match cmpKeyLt x.datetime y.datetime with
      | .error e => .error e
      | .ok true =>
        match insertPost x ys with
        | .error e => .error e
        | .ok r => .ok (y :: r)
      | .ok false => .ok (x :: y :: ys) := rfl

/-- Shape of a successful insertion: the target list splits as `as ++ bs`,
the result places `x` between them, every skipped element of `as` compared
strictly greater than `x`, and the first element of `bs` (if any) compared
not-greater. -/
theorem insertPost_ok_shape (x : PostPage) (ys : List PostPage) :
    ∀ r, insertPost x ys = .ok r →
      ∃ as bs, ys = as ++ bs ∧ r = as ++ x :: bs ∧
        (∀ a ∈ as, cmpKeyLt x.datetime a.datetime = .ok true) ∧
        ∀ b, bs.head? = some b → cmpKeyLt x.datetime b.datetime = .ok false := by
  induction ys with
  | nil =>
    intro r h
    simp only [insertPost, Except.ok.injEq] at h
    exact ⟨[], [], rfl, by simp [← h], by simp, by simp⟩
  | cons y ys ih =>
    intro r h
    rw [insertPost_cons] at h
    cases hc : cmpKeyLt x.datetime y.datetime with
    | error e => rw [hc] at h; cases h
    | ok b =>
      rw [hc] at h
      cases b with
      | true =>
        cases hr : insertPost x ys with
        | error e => rw [hr] at h; cases h
        | ok r' =>
          rw [hr] at h
          obtain ⟨as, bs, h1, h2, h3, h4⟩ := ih r' hr
          injection h with h
          refine ⟨y :: as, bs, by simp [h1], by simp [← h, h2], ?_, h4⟩
          intro a ha
          rcases List.mem_cons.mp ha with rfl | ha
          · exact hc
          · exact h3 a ha
      | false =>
        injection h with h
        refine ⟨[], y :: ys, rfl, by simp [← h], by simp, ?_⟩
        intro b hb
        simp only [List.head?_cons, Option.some.injEq] at hb
        rw [← hb]
        exact hc

/-- A successful insertion permutes the inserted element into the list. -/
theorem insertPost_perm (x : PostPage) (ys r : List PostPage)
    (h : insertPost x ys = .ok r) : r.Perm (x :: ys) := by
  obtain ⟨as, bs, h1, h2, _, _⟩ := insertPost_ok_shape x ys r h
  rw [h1, h2]
  exact List.perm_middle

/-- A successful insertion starting from a nonempty list performed at least
its first comparison. -/
theorem insertPost_cons_ok (x y : PostPage) (ys r : List PostPage)
    (h : insertPost x (y :: ys) = .ok r) :
    ∃ v, cmpKeyLt x.datetime y.datetime = .ok v := by
  rw [insertPost_cons] at h
  cases hc : cmpKeyLt x.datetime y.datetime with
  | error e => rw [hc] at h; cases h
  | ok v => exact ⟨v, rfl⟩

/-- Insertion into a descending list keeps it descending. -/
theorem insertPost_pairwise (x : PostPage) (ys r : List PostPage)
    (h : insertPost x ys = .ok r) (hp : ys.Pairwise postGE) :
    r.Pairwise postGE := by
  obtain ⟨as, bs, h1, h2, hskip, hstop⟩ := insertPost_ok_shape x ys r h
  subst h1 h2
  rw [List.pairwise_append] at hp
  obtain ⟨pas, pbs, cross⟩ := hp
  rw [List.pairwise_append]
  refine ⟨pas, ?_, ?_⟩
  · rw [List.pairwise_cons]
    refine ⟨?_, pbs⟩
    intro b hb
    cases bs with
    | nil => cases hb
    | cons b0 bs' =>
      obtain ⟨u, v, hxu, hb0v, huv⟩ := cmpKeyLt_ok (hstop b0 rfl)
      have huv' : dtLt u v = false := huv.symm
      rcases List.mem_cons.mp hb with rfl | hb
      · exact ⟨u, v, hxu, hb0v, huv'⟩
      · rw [List.pairwise_cons] at pbs
        obtain ⟨v', w, hb0v', hbw, hvw⟩ := pbs.1 b hb
        rw [hb0v] at hb0v'
        injection hb0v' with hv
        subst hv
        exact ⟨u, w, hxu, hbw, dtLt_false_trans huv' hvw⟩
  · intro a ha b hb
    rcases List.mem_cons.mp hb with rfl | hb
    · obtain ⟨u, ka, hxu, haka, hka⟩ := cmpKeyLt_ok (hskip a ha)
      exact ⟨ka, u, haka, hxu, dtLt_asymm hka.symm⟩
    · exact cross a ha b hb

/-- Insertion does not disturb the subsequence of posts carrying any fixed
timestamp: among equal keys the freshly inserted element ends up first, and
every element it skips carries a strictly greater key. -/
theorem insertPost_filter (x : PostPage) (ys r : List PostPage)
    (h : insertPost x ys = .ok r) (t : PyDateTime) :
    r.filter (fun p => decide (p.datetime = some t)) =
      (x :: ys).filter (fun p => decide (p.datetime = some t)) := by
  obtain ⟨as, bs, h1, h2, hskip, _⟩ := insertPost_ok_shape x ys r h
  subst h1 h2
  by_cases hx : x.datetime = some t
  · have has : as.filter (fun p => decide (p.datetime = some t)) = [] := by
      rw [List.filter_eq_nil_iff]
      intro a ha
      obtain ⟨u, ka, hxu, haka, hka⟩ := cmpKeyLt_ok (hskip a ha)
      rw [hx] at hxu
      injection hxu with hu
      simp only [haka, decide_eq_true_eq, Option.some.injEq]
      intro hkat
      subst hkat
      rw [← hu] at hka
      rw [dtLt_irrefl] at hka
      cases hka
    simp [List.filter_append, List.filter_cons, hx, has]
  · simp [List.filter_append, List.filter_cons, hx]

/-- A successful sort permutes the input. -/
theorem sortPosts_perm : ∀ (l r : List PostPage),
    sortPostsByDateDesc l = .ok r → r.Perm l := by
  intro l
  induction l with
  | nil =>
    intro r h
    simp only [sortPostsByDateDesc, Except.ok.injEq] at h
    rw [← h]
  | cons x xs ih =>
    intro r h
    rw [sortPostsByDateDesc] at h
    cases hs : sortPostsByDateDesc xs with
    | error e => rw [hs] at h; cases h
    | ok r' =>
      rw [hs] at h
      exact (insertPost_perm x r' r h).trans ((ih r' hs).cons x)

/-- A successful sort yields a descending-or-equal list. -/
theorem sortPosts_pairwise : ∀ (l r : List PostPage),
    sortPostsByDateDesc l = .ok r → r.Pairwise postGE := by
  intro l
  induction l with
  | nil =>
    intro r h
    simp only [sortPostsByDateDesc, Except.ok.injEq] at h
    rw [← h]
    exact List.Pairwise.nil
  | cons x xs ih =>
    intro r h
    rw [sortPostsByDateDesc] at h
    cases hs : sortPostsByDateDesc xs with
    | error e => rw [hs] at h; cases h
    | ok r' =>
      rw [hs] at h
      exact insertPost_pairwise x r' r h (ih r' hs)

/-- A successful sort preserves, for every timestamp, the subsequence of
posts carrying that timestamp (stability). -/
theorem sortPosts_filter : ∀ (l r : List PostPage),
    sortPostsByDateDesc l = .ok r → ∀ t : PyDateTime,
      r.filter (fun p => decide (p.datetime = some t)) =
        l.filter (fun p => decide (p.datetime = some t)) := by
  intro l
  induction l with
  | nil =>
    intro r h t
    simp only [sortPostsByDateDesc, Except.ok.injEq] at h
    rw [← h]
  | cons x xs ih =>
    intro r h t
    rw [sortPostsByDateDesc] at h
    cases hs : sortPostsByDateDesc xs with
    | error e => rw [hs] at h; cases h
    | ok r' =>
      rw [hs] at h
      rw [insertPost_filter x r' r h t]
      simp only [List.filter_cons]
      rw [ih r' hs t]

/-- If a sort of at least two posts succeeds, every post had a parsed date:
with two or more elements every element takes part in some key comparison,
and comparing a missing date raises.  (This matches CPython, where timsort
compares all adjacent pairs during run detection.) -/
theorem sortPosts_ok_all_some : ∀ (l r : List PostPage),
    sortPostsByDateDesc l = .ok r → 2 ≤ l.length →
      ∀ p ∈ l, p.datetime ≠ none := by
  intro l
  induction l with
  | nil =>
    intro r _ hlen
    simp at hlen
  | cons x xs ih =>
    intro r h hlen
    rw [sortPostsByDateDesc] at h
    cases hs : sortPostsByDateDesc xs with
    | error e => rw [hs] at h; cases h
    | ok r' =>
      rw [hs] at h
      have hxslen : 1 ≤ xs.length := by
        simp only [List.length_cons] at hlen
        omega
      have hr'len : r'.length = xs.length := (sortPosts_perm xs r' hs).length_eq
      have hr'ne : r' ≠ [] := by
        intro hnil
        rw [hnil] at hr'len
        simp at hr'len
        omega
      obtain ⟨y, ys, rfl⟩ := List.exists_cons_of_ne_nil hr'ne
      obtain ⟨v, hc⟩ := insertPost_cons_ok x y ys r h
      obtain ⟨u, w, hxu, hyw, _⟩ := cmpKeyLt_ok hc
      intro p hp
      rcases List.mem_cons.mp hp with rfl | hp
      · rw [hxu]; exact Option.some_ne_none u
      · by_cases h2 : 2 ≤ xs.length
        · exact ih (y :: ys) hs h2 p hp
        · have hx1 : xs.length = 1 := by omega
          obtain ⟨q, hq⟩ := List.length_eq_one.mp hx1
          rw [hq] at hp
          rcases List.mem_cons.mp hp with rfl | hp
          · have : (y :: ys).Perm [p] := by rw [← hq]; exact sortPosts_perm xs _ hs
            have hy : y :: ys = [p] := List.perm_singleton.mp this
            have : y = p := by injection hy
            rw [← this, hyw]
            exact Option.some_ne_none w
          · cases hp
      

/-! ## Path suffix reasoning for post discovery -/

/-- Appending text and a path separator in front of a list does not affect
whether it ends in `.md`, because the separator cannot occur inside the
three-character extension. -/
theorem mdSuffix_append (xs ys : List Char) :
    List.IsSuffix ['.', 'm', 'd'] (xs ++ '/' :: ys) ↔
      List.IsSuffix ['.', 'm', 'd'] ys := by
  induction xs with
  | nil =>
    rw [List.nil_append, List.suffix_cons_iff]
    constructor
    · rintro (h | h)
      · injection h with h1 _
        exact absurd h1 (by decide)
      · exact h
    · exact Or.inr
  | cons x xs ih =>
    rw [List.cons_append, List.suffix_cons_iff, ih]
    constructor
    · rintro (h | h)
      · exfalso
        have hmem : '/' ∈ x :: (xs ++ '/' :: ys) := by simp
        rw [← h] at hmem
        exact absurd hmem (by decide)
      · exact h
    · exact Or.inr

/-- The `endswith(".md")` test of line 115 is applied to the joined path but
is equivalent to testing the directory entry itself, as long as the entry is
not an absolute path (entries produced by `os.listdir` never are). -/
theorem pyEndsWith_join_md (sp f : String) (hf : pyStartsWith f "/" = false) :
    pyEndsWith (pyJoin sp f) ".md" = pyEndsWith f ".md" := by
  have hmd : (".md").data = ['.', 'm', 'd'] := rfl
  rw [pyJoin, hf]
  simp only [Bool.false_eq_true, if_false]
  by_cases ha : sp = "" ∨ pyEndsWith sp "/"
  · rw [if_pos ha]
    rcases ha with ha | ha
    · subst ha
      rw [pyEndsWith, pyEndsWith, decide_eq_decide, String.data_append]
      have : ("" : String).data = [] := rfl
      rw [this, List.nil_append]
    · have hsuf : List.IsSuffix ("/").data sp.data := of_decide_eq_true ha
      obtain ⟨zs, hz⟩ := hsuf
      rw [pyEndsWith, pyEndsWith, decide_eq_decide, String.data_append, ← hz]
      have : ("/" : String).data = ['/'] := rfl
      rw [this, hmd, List.append_assoc]
      exact mdSuffix_append zs f.data
  · rw [if_neg ha]
    rw [pyEndsWith, pyEndsWith, decide_eq_decide, String.data_append,
      String.data_append]
    have : ("/" : String).data = ['/'] := rfl
    rw [this, hmd, List.append_assoc]
    exact mdSuffix_append sp.data f.data

/-! ## Generic facts about the effectful loops -/

/-- Every element of a successfully mapped list has a successful image in
the output. -/
theorem mapExcept_ok_mem {α β : Type} {f : α → Except String β} :
    ∀ {l : List α} {r : List β}, mapExcept f l = .ok r →
      ∀ a ∈ l, ∃ b, b ∈ r ∧ f a = .ok b := by
  intro l
  induction l with
  | nil =>
    intro r _ a ha
    cases ha
  | cons x xs ih =>
    intro r h a ha
    rw [mapExcept] at h
    cases hx : f x with
    | error e => rw [hx] at h; cases h
    | ok y =>
      rw [hx] at h
      cases hr : mapExcept f xs with
      | error e => rw [hr] at h; cases h
      | ok ys =>
        rw [hr] at h
        injection h with h
        rcases List.mem_cons.mp ha with rfl | ha
        · exact ⟨y, by rw [← h]; exact List.mem_cons_self y ys, hx⟩
        · obtain ⟨b, hb, hfb⟩ := ih hr a ha
          exact ⟨b, by rw [← h]; exact List.mem_cons_of_mem y hb, hfb⟩

/-! ## Loading and writing preserve the statically declared fields -/

/-- Loading a page changes only `content`, `output` and (for collections)
`posts`; in particular the target directory is unchanged. -/
theorem loadPage_preserves_target (pg pg' : SitePage) (inputDir : String)
    (fs : InputFS) (navs : List Nav)
    (h : SitePage.load pg inputDir fs navs = .ok pg') :
    pg'.target = pg.target := by
  cases pg with
  | single p =>
    rw [SitePage.load] at h
    split at h
    · cases h
    · rename_i p' heq
      injection h with h
      rw [SinglePage.load] at heq
      split at heq
      · cases heq
      · injection heq with heq
        rw [← h, ← heq]
        rfl
  | front p =>
    rw [SitePage.load] at h
    split at h
    · cases h
    · rename_i p' heq
      injection h with h
      rw [SinglePage.load] at heq
      split at heq
      · cases heq
      · injection heq with heq
        rw [← h, ← heq]
        rfl
  | collection c =>
    rw [SitePage.load] at h
    split at h
    · cases h
    · rename_i c' heq
      injection h with h
      rw [CollectionPage.load] at heq
      split at heq
      · cases heq
      · split at heq
        · cases heq
        · injection heq with heq
          rw [← h, ← heq]
          rfl

/-- A successful `write` emits, among possibly other files, the page's own
`index.html` under `output_dir/target/`. -/
theorem writePage_own_index (pg : SitePage) (outDir : String)
    (ws : List (String × String)) (h : SitePage.write pg outDir = .ok ws) :
    ∃ o, (pyJoin (pyJoin outDir pg.target) "index.html", o) ∈ ws := by
  cases pg with
  | single p =>
    rw [SitePage.write, SinglePage.write, writeEntries.eq_def] at h
    split at h
    · cases h
    · rename_i o _
      injection h with h
      exact ⟨o, by rw [← h]; exact List.mem_singleton.mpr rfl⟩
  | front p =>
    rw [SitePage.write, SinglePage.write, writeEntries.eq_def] at h
    split at h
    · cases h
    · rename_i o _
      injection h with h
      exact ⟨o, by rw [← h]; exact List.mem_singleton.mpr rfl⟩
  | collection c =>
    rw [SitePage.write, CollectionPage.write] at h
    split at h
    · cases h
    · rename_i rs _
      split at h
      · cases h
      · rename_i own heq
        rw [writeEntries.eq_def] at heq
        split at heq
        · cases heq
        · rename_i o _
          injection h with h
          injection heq with heq
          refine ⟨o, ?_⟩
          rw [← h, ← heq]
          exact List.mem_append_right _ (List.mem_singleton.mpr rfl)

/-! ## The navigation list -/

/-- Line 186 as a filter-then-map: the navigation holds exactly the
non-hidden declared pages, in declared order. -/
theorem navsOf_eq_filter_map (pages : List SitePage) :
    navsOf pages = (pages.filter (fun p => p.hidden = false)).map
      (fun p => Nav.mk p.name p.title p.typeName) := by
  induction pages with
  | nil => rfl
  | cons p ps ih =>
    have hdef : ∀ l : List SitePage, navsOf l = l.filterMap
        (fun p => if p.hidden then none
          else some (Nav.mk p.name p.title p.typeName)) := fun _ => rfl
    rw [hdef, List.filterMap_cons, ← hdef, ih, List.filter_cons]
    cases hp : p.hidden <;> simp [hp]

/-! ## Metadata extraction preserves unrelated fields -/

/-- Applying one metadata pair never changes the content identifier. -/
theorem applyMeta_preserves_uuid (p : PostPage) (kv : String × String)
    (p' : PostPage) (h : applyMeta p kv = .ok p') : p'.uuid = p.uuid := by
  rw [applyMeta.eq_def] at h
  split at h
  · injection h with h; rw [← h]
  · injection h with h; rw [← h]
  · split at h
    · injection h with h; rw [← h]
    · cases h
  · injection h with h
    rw [← h]
    split <;> rfl
  · injection h with h; rw [← h]

/-- Applying a metadata pair whose key is not `hidden` never changes the
hidden flag. -/
theorem applyMeta_preserves_hidden (p : PostPage) (kv : String × String)
    (p' : PostPage) (hk : kv.1 ≠ "hidden") (h : applyMeta p kv = .ok p') :
    p'.hidden = p.hidden := by
  rw [applyMeta.eq_def] at h
  split at h
  · injection h with h; rw [← h]
  · injection h with h; rw [← h]
  · split at h
    · injection h with h; rw [← h]
    · cases h
  · rename_i hkv
    exact absurd hkv hk
  · injection h with h; rw [← h]

/-- Applying a metadata pair whose key is not `title` never changes the
title. -/
theorem applyMeta_preserves_title (p : PostPage) (kv : String × String)
    (p' : PostPage) (hk : kv.1 ≠ "title") (h : applyMeta p kv = .ok p') :
    p'.title = p.title := by
  rw [applyMeta.eq_def] at h
  split at h
  · rename_i hkv
    exact absurd hkv hk
  · injection h with h; rw [← h]
  · split at h
    · injection h with h; rw [← h]
    · cases h
  · injection h with h
    rw [← h]
    split <;> rfl
  · injection h with h; rw [← h]

/-- The whole metadata loop never changes the content identifier. -/
theorem loadMeta_preserves_uuid : ∀ (meta : List (String × String))
    (p p' : PostPage), PostPage.loadMeta p meta = .ok p' → p'.uuid = p.uuid := by
  intro meta
  induction meta with
  | nil =>
    intro p p' h
    injection h with h
    rw [← h]
  | cons kv rest ih =>
    intro p p' h
    rw [PostPage.loadMeta] at h
    split at h
    · cases h
    · rename_i q hq
      exact (ih q p' h).trans (applyMeta_preserves_uuid p kv q hq)

/-- The metadata loop leaves the hidden flag alone when no `hidden` key is
present. -/
theorem loadMeta_preserves_hidden : ∀ (meta : List (String × String))
    (p p' : PostPage), (∀ kv ∈ meta, kv.1 ≠ "hidden") →
      PostPage.loadMeta p meta = .ok p' → p'.hidden = p.hidden := by
  intro meta
  induction meta with
  | nil =>
    intro p p' _ h
    injection h with h
    rw [← h]
  | cons kv rest ih =>
    intro p p' hks h
    rw [PostPage.loadMeta] at h
    split at h
    · cases h
    · rename_i q hq
      have h1 := applyMeta_preserves_hidden p kv q (hks kv (List.mem_cons_self kv rest)) hq
      have h2 := ih q p' (fun kv' hkv' => hks kv' (List.mem_cons_of_mem kv hkv')) h
      exact h2.trans h1

/-- The metadata loop leaves the title alone when no `title` key is
present. -/
theorem loadMeta_preserves_title : ∀ (meta : List (String × String))
    (p p' : PostPage), (∀ kv ∈ meta, kv.1 ≠ "title") →
      PostPage.loadMeta p meta = .ok p' → p'.title = p.title := by
  intro meta
  induction meta with
  | nil =>
    intro p p' _ h
    injection h with h
    rw [← h]
  | cons kv rest ih =>
    intro p p' hks h
    rw [PostPage.loadMeta] at h
    split at h
    · cases h
    · rename_i q hq
      have h1 := applyMeta_preserves_title p kv q (hks kv (List.mem_cons_self kv rest)) hq
      have h2 := ih q p' (fun kv' hkv' => hks kv' (List.mem_cons_of_mem kv hkv')) h
      exact h2.trans h1

/-! ## Claim theorems -/

/-- C2: the target path of each page variant is exactly: SinglePage: its
`name`; FrontPage: the empty path (output root); CollectionPage: its `name`;
PostPage: `parent.name / content_id`, where the content identifier is
derived (by SHA-1) from the post's name. -/
theorem c2_target_paths (n t pn : String) (b : Bool) :
    (SinglePage.make n t b).target = n ∧
    (FrontPage.make n t).target = "" ∧
    (CollectionPage.make n t b).target = n ∧
    (PostPage.make n t pn).target = pyJoin pn (PostPage.make n t pn).uuid ∧
    (PostPage.make n t pn).uuid = sha1Hex n :=
  ⟨rfl, rfl, rfl, rfl, rfl⟩

/-- C9: a FrontPage ends construction with name `"home"`, title `"Home"`
and the empty target, discarding the caller-supplied name and title, while
its source path is derived from the supplied name before the override. -/
theorem c9_front_page_overrides (n t : String) :
    (FrontPage.make n t).name = "home" ∧
    (FrontPage.make n t).title = "Home" ∧
    (FrontPage.make n t).target = "" ∧
    (FrontPage.make n t).src = n ++ ".md" :=
  ⟨rfl, rfl, rfl, rfl⟩

/-- C5: a `date` metadata value is parsed with the fixed month-day-year
format; on success `published_at` and `display_date` are both set (the
latter as abbreviated month, unpadded day, full year, so that
`"01-05-2024"` displays as `"Jan 5, 2024"`), and a non-matching value
raises an error for that post. -/
theorem c5_date_parsing (p : PostPage) (d : String) :
    (∀ dt, strptimeMDY d = some dt →
      applyMeta p ("date", d) =
        .ok { p with datetime := some dt, date := some (strftimeDisplay dt) }) ∧
    (strptimeMDY d = none → ∃ e, applyMeta p ("date", d) = .error e) ∧
    strptimeMDY "01-05-2024" = some ⟨2024, 1, 5⟩ ∧
    strftimeDisplay ⟨2024, 1, 5⟩ = "Jan 5, 2024" := by
  have hred : applyMeta p ("date", d) =
      match strptimeMDY d with
      | some dt => .ok { p with datetime := some dt, date := some (strftimeDisplay dt) }
      | none => .error "ValueError: time data does not match format %m-%d-%Y" := rfl
  refine ⟨?_, ?_, by decide, by decide⟩
  · intro dt hdt
    rw [hred, hdt]
  · intro hdt
    rw [hred, hdt]
    exact ⟨_, rfl⟩

/-- Witness for C5 at the concrete input of the claim: parsing
`"01-05-2024"` sets the timestamp and the display string, and an
unparseable value errors. -/
theorem c5_date_parsing_witness :
    applyMeta (PostPage.make "a" "a" "posts") ("date", "01-05-2024") =
      .ok { PostPage.make "a" "a" "posts" with
            datetime := some ⟨2024, 1, 5⟩
            date := some (strftimeDisplay ⟨2024, 1, 5⟩) } ∧
    ∃ e, applyMeta (PostPage.make "a" "a" "posts") ("date", "not-a-date") = .error e :=
  ⟨(c5_date_parsing (PostPage.make "a" "a" "posts") "01-05-2024").1 ⟨2024, 1, 5⟩ (by decide),
   (c5_date_parsing (PostPage.make "a" "a" "posts") "not-a-date").2.1 (by decide)⟩

/-- C6: a `hidden` metadata value marks the post hidden exactly when it
compares equal to `"true"` case-insensitively; any other value, or the
absence of the key, leaves the post visible. -/
theorem c6_hidden_flag (p : PostPage) (v : String) (meta : List (String × String))
    (hp : p.hidden = false) :
    (∃ p', applyMeta p ("hidden", v) = .ok p' ∧ (p'.hidden = true ↔ pyLower v = "true")) ∧
    ((∀ kv ∈ meta, kv.1 ≠ "hidden") → ∀ p', PostPage.loadMeta p meta = .ok p' →
      p'.hidden = p.hidden) := by
  constructor
  · have hred : applyMeta p ("hidden", v) =
        .ok (if pyLower v = "true" then { p with hidden := true } else p) := rfl
    by_cases hv : pyLower v = "true"
    · exact ⟨{ p with hidden := true }, by rw [hred, if_pos hv], by simp [hv]⟩
    · refine ⟨p, by rw [hred, if_neg hv], ?_⟩
      rw [hp]
      simp [hv]
  · intro hmeta p' h
    exact loadMeta_preserves_hidden meta p p' hmeta h

/-- Witness for C6 at the claim's scenario: `"True"` (mixed case) marks the
post hidden, and metadata without the key leaves the flag unchanged. -/
theorem c6_hidden_flag_witness :
    (PostPage.make "a" "a" "posts").hidden = false ∧
    ((∃ p', applyMeta (PostPage.make "a" "a" "posts") ("hidden", "True") = .ok p' ∧
        (p'.hidden = true ↔ pyLower "True" = "true")) ∧
      ((∀ kv ∈ [("subtitle", "x")], kv.1 ≠ "hidden") → ∀ p',
        PostPage.loadMeta (PostPage.make "a" "a" "posts") [("subtitle", "x")] = .ok p' →
          p'.hidden = (PostPage.make "a" "a" "posts").hidden)) :=
  ⟨rfl, c6_hidden_flag (PostPage.make "a" "a" "posts") "True" [("subtitle", "x")] rfl⟩

/-- C7: the content identifier is a pure function of the post's name alone:
posts constructed with equal names get equal identifiers regardless of
title or parent, the identifier is exactly the SHA-1 of the name, and the
metadata loop never changes it. -/
theorem c7_content_id_pure (n t₁ t₂ pn₁ pn₂ : String) (p : PostPage)
    (meta : List (String × String)) (p' : PostPage)
    (h : PostPage.loadMeta p meta = .ok p') :
    (PostPage.make n t₁ pn₁).uuid = (PostPage.make n t₂ pn₂).uuid ∧
    (PostPage.make n t₁ pn₁).uuid = sha1Hex n ∧
    p'.uuid = p.uuid :=
  ⟨rfl, rfl, loadMeta_preserves_uuid meta p p' h⟩

/-- Witness for C7: same name with different titles and parents, and a
concrete metadata load, all leave the identifier alone. -/
theorem c7_content_id_pure_witness :
    PostPage.loadMeta (PostPage.make "a" "a" "posts") [("subtitle", "s")] =
      .ok { PostPage.make "a" "a" "posts" with subtitle := some "s" } ∧
    ((PostPage.make "a" "t1" "blog").uuid = (PostPage.make "a" "t2" "news").uuid ∧
      (PostPage.make "a" "t1" "blog").uuid = sha1Hex "a" ∧
      ({ PostPage.make "a" "a" "posts" with subtitle := some "s" } : PostPage).uuid =
        (PostPage.make "a" "a" "posts").uuid) :=
  ⟨rfl, c7_content_id_pure "a" "t1" "t2" "blog" "news" (PostPage.make "a" "a" "posts")
    [("subtitle", "s")] { PostPage.make "a" "a" "posts" with subtitle := some "s" } rfl⟩

/-- C8: post discovery builds exactly one post per directory entry that is
a regular file ending in the Markdown extension, named and titled after the
filename without its extension; other entries produce no post.  (The
`endswith` test of line 115 runs on the joined path, which for the relative
names produced by `os.listdir` is equivalent to testing the entry name.) -/
theorem c8_discovery (isf : String → Bool) (sp : String) (names : List String)
    (pn : String) (h : ∀ n ∈ names, pyStartsWith n "/" = false) :
    discoverPosts isf sp names pn =
      (names.filter (fun n => isf (pyJoin sp n) && pyEndsWith n ".md")).map
        (fun n => PostPage.make (splitextRoot n) (splitextRoot n) pn) := by
  induction names with
  | nil => rfl
  | cons n ns ih =>
    have hbridge := pyEndsWith_join_md sp n (h n (List.mem_cons_self n ns))
    have hrest : ∀ m ∈ ns, pyStartsWith m "/" = false :=
      fun m hm => h m (List.mem_cons_of_mem n hm)
    have hdef : ∀ l, discoverPosts isf sp l pn = l.filterMap (fun filename =>
        if isf (pyJoin sp filename) && pyEndsWith (pyJoin sp filename) ".md" then
          some (PostPage.make (splitextRoot filename) (splitextRoot filename) pn)
        else none) := fun _ => rfl
    rw [hdef, List.filterMap_cons, ← hdef, ih hrest, List.filter_cons, hbridge]
    cases hc : isf (pyJoin sp n) && pyEndsWith n ".md" <;> simp [hc]

/-- Witness for C8 at the claim's scenario: a directory holding `a.md`,
`notes.txt`, `b.md` and a subdirectory `sub` yields exactly the posts `a`
and `b`. -/
theorem c8_discovery_witness :
    (∀ n ∈ ["a.md", "notes.txt", "b.md", "sub"], pyStartsWith n "/" = false) ∧
    discoverPosts (fun path => path ≠ "dir/sub") "dir" ["a.md", "notes.txt", "b.md", "sub"] "posts" =
      ((["a.md", "notes.txt", "b.md", "sub"]).filter
        (fun n => (fun path => path ≠ "dir/sub") (pyJoin "dir" n) && pyEndsWith n ".md")).map
        (fun n => PostPage.make (splitextRoot n) (splitextRoot n) "posts") :=
  ⟨by decide, c8_discovery (fun path => path ≠ "dir/sub") "dir"
    ["a.md", "notes.txt", "b.md", "sub"] "posts" (by decide)⟩

/-- C10: discovery passes the filename without its extension as both the
post's name and its title, and the metadata loop only overrides the title
when a `title` key is present, so a post without one keeps the derived
title. -/
theorem c10_title_defaults (isf : String → Bool) (sp : String)
    (names : List String) (pn : String) (meta : List (String × String)) :
    (∀ p ∈ discoverPosts isf sp names pn,
      p.title = p.name ∧ ∃ fn ∈ names, p.name = splitextRoot fn) ∧
    ((∀ kv ∈ meta, kv.1 ≠ "title") → ∀ p p', PostPage.loadMeta p meta = .ok p' →
      p'.title = p.title) := by
  constructor
  · intro p hp
    have hdef : discoverPosts isf sp names pn = names.filterMap (fun filename =>
        if isf (pyJoin sp filename) && pyEndsWith (pyJoin sp filename) ".md" then
          some (PostPage.make (splitextRoot filename) (splitextRoot filename) pn)
        else none) := rfl
    rw [hdef] at hp
    obtain ⟨fn, hfn, hf⟩ := List.mem_filterMap.mp hp
    split at hf
    · injection hf with hf
      rw [← hf]
      exact ⟨rfl, fn, hfn, rfl⟩
    · cases hf
  · intro hmeta p p' h
    exact loadMeta_preserves_title meta p p' hmeta h

/-- Witness for C10: the single discovered post of `hello.md` is titled
`hello`, and loading metadata without a `title` key keeps the title. -/
theorem c10_title_defaults_witness :
    ((PostPage.make "hello" "hello" "posts").title =
        (PostPage.make "hello" "hello" "posts").name ∧
      ∃ fn ∈ ["hello.md"], (PostPage.make "hello" "hello" "posts").name = splitextRoot fn) ∧
    ((∀ kv ∈ [("subtitle", "s")], kv.1 ≠ "title") →
      ∀ p p', PostPage.loadMeta p [("subtitle", "s")] = .ok p' → p'.title = p.title) :=
  ⟨(c10_title_defaults (fun _ => true) "dir" ["hello.md"] "posts" [("subtitle", "s")]).1
      (PostPage.make "hello" "hello" "posts") (List.mem_cons_self _ _),
   (c10_title_defaults (fun _ => true) "dir" ["hello.md"] "posts" [("subtitle", "s")]).2⟩

/-- C1: when a collection loads successfully and every loaded post carries a
parsed timestamp, the final post sequence is sorted by `published_at`
descending (equal timestamps allowed), and for each timestamp the posts
carrying it appear in their discovery order (the order of the loaded,
pre-sort list). -/
theorem c1_sorted_stable (c : CollectionPage) (inputDir : String) (fs : InputFS)
    (navs : List Nav) (l : List PostPage) (c' : CollectionPage)
    (hl : CollectionPage.loadPosts c inputDir fs navs = .ok l)
    (h : CollectionPage.load c inputDir fs navs = .ok c')
    (hall : ∀ p ∈ c'.posts, p.datetime.isSome = true) :
    c'.posts.Pairwise postGE ∧
    ∀ t : PyDateTime,
      c'.posts.filter (fun p => decide (p.datetime = some t)) =
        l.filter (fun p => decide (p.datetime = some t)) := by
  rw [CollectionPage.load] at h
  split at h
  · cases h
  · rename_i loaded hloaded
    rw [hl] at hloaded
    injection hloaded with hloaded
    subst hloaded
    split at h
    · cases h
    · rename_i sorted hsort
      injection h with h
      constructor
      · rw [← h]
        exact sortPosts_pairwise l sorted hsort
      · intro t
        rw [← h]
        exact sortPosts_filter l sorted hsort t

def collPosts : CollectionPage := CollectionPage.make "posts" "Posts" false

/-- Input tree with two dated posts, used to exercise the collection load
concretely. -/
def fsTwoDated : InputFS :=
  { read := fun path =>
      if path = "in/posts/a.md" then some ⟨"", [("date", "01-01-2020")]⟩
      else some ⟨"", [("date", "12-31-2024")]⟩
    listdir := fun _ => some ["a.md", "b.md"]
    isfile := fun _ => true }

/-- The post of `a.md` after loading. -/
def postDatedA : PostPage :=
  { PostPage.make "a" "a" "posts" with
    datetime := some ⟨2020, 1, 1⟩
    date := some (strftimeDisplay ⟨2020, 1, 1⟩)
    content := some (markdownRender "")
    output := some (pageTemplateRender [] "a" (markdownRender "")) }

/-- The post of `b.md` after loading. -/
def postDatedB : PostPage :=
  { PostPage.make "b" "b" "posts" with
    datetime := some ⟨2024, 12, 31⟩
    date := some (strftimeDisplay ⟨2024, 12, 31⟩)
    content := some (markdownRender "")
    output := some (pageTemplateRender [] "b" (markdownRender "")) }

/-- The collection after loading: posts sorted most recent first. -/
def collTwoDatedLoaded : CollectionPage :=
  { collPosts with
    posts := [postDatedB, postDatedA]
    output := some (collectionTemplateRender [] "Posts" [postDatedB, postDatedA]) }

set_option maxRecDepth 100000 in
/-- Witness for C1: on the two-post input the load succeeds, `b` (Dec 2024)
sorts before `a` (Jan 2020), and the claim's conclusion holds there. -/
theorem c1_sorted_stable_witness :
    CollectionPage.loadPosts collPosts "in" fsTwoDated [] = .ok [postDatedA, postDatedB] ∧
    CollectionPage.load collPosts "in" fsTwoDated [] = .ok collTwoDatedLoaded ∧
    (∀ p ∈ collTwoDatedLoaded.posts, p.datetime.isSome = true) ∧
    (collTwoDatedLoaded.posts.Pairwise postGE ∧
      ∀ t : PyDateTime,
        collTwoDatedLoaded.posts.filter (fun p => decide (p.datetime = some t)) =
          [postDatedA, postDatedB].filter (fun p => decide (p.datetime = some t))) :=
  ⟨rfl, rfl, by decide,
   c1_sorted_stable collPosts "in" fsTwoDated [] [postDatedA, postDatedB]
     collTwoDatedLoaded rfl rfl (by decide)⟩

/-- C3 (as amended): if a collection's posts load successfully, at least two
posts were discovered, and at least one of them still has no parsed
timestamp (its metadata had no `date` key), then the collection load fails
with the sort's comparison error. -/
theorem c3_missing_date_fatal (c : CollectionPage) (inputDir : String)
    (fs : InputFS) (navs : List Nav) (loaded : List PostPage)
    (hl : CollectionPage.loadPosts c inputDir fs navs = .ok loaded)
    (hlen : 2 ≤ loaded.length)
    (hnone : ∃ p ∈ loaded, p.datetime = none) :
    ∃ e, CollectionPage.load c inputDir fs navs = .error e := by
  have hred : CollectionPage.load c inputDir fs navs =
      match sortPostsByDateDesc loaded with
      | .error e => .error e
      | .ok sorted =>
        .ok { c with
              posts := sorted
              output := some (collectionTemplateRender navs c.title sorted) } := by
    rw [CollectionPage.load, hl]
  cases hs : sortPostsByDateDesc loaded with
  | error e =>
    refine ⟨e, ?_⟩
    rw [hred, hs]
  | ok sorted =>
    exfalso
    obtain ⟨p, hp, hpd⟩ := hnone
    exact sortPosts_ok_all_some loaded sorted hs hlen p hp hpd

/-- Input tree with two posts both lacking a `date` key. -/
def fsTwoNoDate : InputFS :=
  { read := fun _ => some ⟨"", []⟩
    listdir := fun _ => some ["a.md", "b.md"]
    isfile := fun _ => true }

/-- The two dateless posts after loading. -/
def loadedTwoNoDate : List PostPage :=
  [{ PostPage.make "a" "a" "posts" with
     content := some (markdownRender "")
     output := some (pageTemplateRender [] "a" (markdownRender "")) },
   { PostPage.make "b" "b" "posts" with
     content := some (markdownRender "")
     output := some (pageTemplateRender [] "b" (markdownRender "")) }]

/-- Witness for the amended C3: two discovered posts without dates load
fine individually, and the collection load then fails. -/
theorem c3_missing_date_fatal_witness :
    CollectionPage.loadPosts collPosts "in" fsTwoNoDate [] = .ok loadedTwoNoDate ∧
    2 ≤ loadedTwoNoDate.length ∧
    (∃ p ∈ loadedTwoNoDate, p.datetime = none) ∧
    ∃ e, CollectionPage.load collPosts "in" fsTwoNoDate [] = .error e :=
  ⟨rfl, by decide, ⟨_, List.mem_cons_self _ _, rfl⟩,
   c3_missing_date_fatal collPosts "in" fsTwoNoDate [] loadedTwoNoDate rfl
     (by decide) ⟨_, List.mem_cons_self _ _, rfl⟩⟩

/-- Input tree with a single post lacking a `date` key. -/
def fsSingleNoDate : InputFS :=
  { read := fun _ => some ⟨"", []⟩
    listdir := fun _ => some ["a.md"]
    isfile := fun _ => true }

/-- Counterexample to C3 as stated: a collection whose only post has no
parseable `date` key loads successfully (a one-element sort performs no key
comparison) and produces its rendered output, contradicting the claim that
any such collection fails to build. -/
theorem c3_counterexample :
    (CollectionPage.load collPosts "in" fsSingleNoDate []).isOk = true ∧
    Except.map (fun c => c.output.isSome) (CollectionPage.load collPosts "in" fsSingleNoDate []) =
      .ok true :=
  ⟨rfl, rfl⟩

/-- C4: the navigation list is a pure function of the declared page set,
holding exactly the non-hidden pages in declared order with their `name`,
`title` and `type_name()`; under a successful build every declared page
(hidden ones included) is loaded with that navigation list and has its
`index.html` in the written output tree. -/
theorem c4_navigation (pages : List SitePage) (inputDir : String) (fs : InputFS)
    (outDir : String) (res : List SitePage × List (String × String))
    (h : buildSite pages inputDir fs outDir = .ok res) :
    navsOf pages = (pages.filter (fun p => p.hidden = false)).map
      (fun p => Nav.mk p.name p.title p.typeName) ∧
    ∀ p ∈ pages, ∃ p', SitePage.load p inputDir fs (navsOf pages) = .ok p' ∧
      p'.target = p.target ∧
      ∃ o, (pyJoin (pyJoin outDir p.target) "index.html", o) ∈ res.2 := by
  refine ⟨navsOf_eq_filter_map pages, ?_⟩
  intro p hp
  simp only [buildSite] at h
  split at h
  · cases h
  · rename_i loaded hloaded
    split at h
    · cases h
    · rename_i writes hwrites
      injection h with h
      obtain ⟨p', hp', hload⟩ := mapExcept_ok_mem hloaded p hp
      obtain ⟨ws, hws, hwrite⟩ := mapExcept_ok_mem hwrites p' hp'
      have htgt := loadPage_preserves_target p p' inputDir fs (navsOf pages) hload
      obtain ⟨o, ho⟩ := writePage_own_index p' outDir ws hwrite
      refine ⟨p', hload, htgt, o, ?_⟩
      rw [← h, ← htgt]
      exact List.mem_flatten.mpr ⟨ws, hws, ho⟩

def pagesW : List SitePage :=
  [SitePage.front (FrontPage.make "home" "Home"),
   SitePage.single (SinglePage.make "about" "About" true)]

/-- Input tree for the build witness: every read succeeds with plain text. -/
def fsSiteW : InputFS :=
  { read := fun _ => some ⟨"hello", []⟩
    listdir := fun _ => none
    isfile := fun _ => false }

/-- The front page after loading. -/
def frontLoadedW : SinglePage :=
  { FrontPage.make "home" "Home" with
    content := some (markdownRender "hello")
    output := some (pageTemplateRender (navsOf pagesW) "Home" (markdownRender "hello")) }

/-- The hidden single page after loading. -/
def aboutLoadedW : SinglePage :=
  { SinglePage.make "about" "About" true with
    content := some (markdownRender "hello")
    output := some (pageTemplateRender (navsOf pagesW) "About" (markdownRender "hello")) }

/-- Expected build result for the witness site. -/
def resW : List SitePage × List (String × String) :=
  ([SitePage.front frontLoadedW, SitePage.single aboutLoadedW],
   [("out/index.html", pageTemplateRender (navsOf pagesW) "Home" (markdownRender "hello")),
    ("out/about/index.html", pageTemplateRender (navsOf pagesW) "About" (markdownRender "hello"))])

/-- Witness for C4: a site with a front page and a hidden single page
builds; the hidden page is absent from the navigation yet written. -/
theorem c4_navigation_witness :
    buildSite pagesW "in" fsSiteW "out" = .ok resW ∧
    (navsOf pagesW = (pagesW.filter (fun p => p.hidden = false)).map
        (fun p => Nav.mk p.name p.title p.typeName) ∧
      ∀ p ∈ pagesW, ∃ p', SitePage.load p "in" fsSiteW (navsOf pagesW) = .ok p' ∧
        p'.target = p.target ∧
        ∃ o, (pyJoin (pyJoin "out" p.target) "index.html", o) ∈ resW.2) :=
  ⟨rfl, c4_navigation pagesW "in" fsSiteW "out" resW rfl⟩

set_option maxRecDepth 200000 in
/-- SHA-1 test vector, validating the embedded `hashlib.sha1` against the
value CPython computes for the empty message. -/
theorem sha1Hex_empty_vector :
    sha1Hex "" = "da39a3ee5e6b4b0d3255bfef95601890afd80709" := by
  decide
